import Mathlib

/-!
Verification of the process-execution and purge utilities of this repository
(`Utilities` in `src/unnamed/part_002` and `PurgeAction` in
`src/apps/rush-lib/src/cli/actions/PurgeAction.ts`), as a shallow embedding.

Environments (`process.env`-style objects) are modelled as ordered association
lists of string pairs, mirroring JavaScript object own-property order; the
`os.platform() === 'win32'` check is modelled by an explicit `isWin32 : Bool`
parameter.
-/

set_option autoImplicit false

namespace RushUtilities

/-- One environment object: variable name / value pairs in property order. -/
abbrev Environment := List (String × String)

/-- JavaScript `String.prototype.toUpperCase()` on environment-variable names,
modelled character by character (ASCII case mapping). -/
def toUpperCase (s : String) : String :=
  String.mk (s.data.map Char.toUpper)

/-- The JavaScript anchored case-sensitive regex test `/^prefixText/.test(s)`,
modelled as prefix comparison on the character list. -/
def strStartsWith (s prefixText : String) : Bool :=
  prefixText.data.isPrefixOf s.data

/-- The comparison key of `_createEnvironmentForRushCommand` (part_002 line 441):
`os.platform() === 'win32' ? key.toUpperCase() : key`. -/
def normalizedKey (isWin32 : Bool) (key : String) : String :=
  if isWin32 then toUpperCase key else key

/-- The drop test of the sanitizer loop (part_002 lines 446 and 456): an entry is
skipped when its normalized key equals `INIT_CWD` exactly or matches the
anchored case-sensitive regex `/^NPM_CONFIG_/`. -/
def isDroppedKey (isWin32 : Bool) (key : String) : Bool :=
  normalizedKey isWin32 key = "INIT_CWD"
    || strStartsWith (normalizedKey isWin32 key) "NPM_CONFIG_"

/-- JavaScript object assignment `obj[k] = v`: replace the value in place when
the key is already present, otherwise append the pair at the end. -/
def setKey (env : Environment) (k v : String) : Environment :=
  if env.any (fun p => p.1 = k) then
    env.map (fun p => if p.1 = k then (k, v) else p)
  else
    env ++ [(k, v)]

/-- Source `Utilities._createEnvironmentForRushCommand` (part_002 lines 434-475):
copy every entry of the base environment whose comparison key is neither
`INIT_CWD` nor an `NPM_CONFIG_`-prefixed key, then, when `initCwd` is truthy
(a non-empty string), assign `INIT_CWD = initCwd`. -/
def createEnvironmentForRushCommand (isWin32 : Bool) (initCwd : String)
    (initialEnvironment : Environment) : Environment :=
  let environment := initialEnvironment.filter (fun p => !isDroppedKey isWin32 p.1)
  if initCwd ≠ "" then setKey environment "INIT_CWD" initCwd else environment

/-- First value bound to a key in an environment, in property order. -/
def lookupEnv (env : Environment) (k : String) : Option String :=
  (env.find? (fun p => p.1 = k)).map (fun p => p.2)

/-- Source `Utilities.escapeShellParameter` (part_002 lines 390-392): wrap the
parameter in double quotes, with no further processing. -/
def escapeShellParameter (parameter : String) : String :=
  "\"" ++ parameter ++ "\""

/-- The command-escaping step of `_executeCommandInternal` (part_002 lines
508-509): `command.indexOf(' ') < 0 ? command :
Utilities.escapeShellParameter(command)` — the command is escaped only when it
contains a space character. -/
def escapedCommand (command : String) : String :=
  if command.data.contains ' ' then escapeShellParameter command else command

/-- The argument-escaping step of `_executeCommandInternal` (part_002 line
511): every argument is escaped, unconditionally. -/
def escapedArgs (args : List String) : List String :=
  args.map escapeShellParameter

/-- Modelled from the spec: the word-splitting performed by the shell that the
escaped tokens are handed to (the spawn uses `shell: true`, which is not code
of this repository). The model covers double-quote handling and
space-separated word splitting: a double quote toggles quoted mode, an
unquoted space ends the current word, and every other character is taken
literally; shell expansion characters are not modelled. State: remaining
characters, inside-quotes flag, current word (reversed), word-started flag. -/
def shellSplit : List Char → Bool → List Char → Bool → List (List Char)
  | [], _, cur, started => if started then [cur.reverse] else []
  | c :: rest, inQuote, cur, started =>
    if c = '"' then
      shellSplit rest (!inQuote) cur true
    else if c = ' ' ∧ inQuote = false then
      (if started then cur.reverse :: shellSplit rest false [] false
       else shellSplit rest false [] false)
    else
      shellSplit rest inQuote (c :: cur) (true)

/-- The words a string is split into by the modelled shell. -/
def shellWords (s : String) : List String :=
  (shellSplit s.data false [] false).map String.mk

/-- Observable trace of one `executeCommandWithRetry` run: how many times the
underlying command was invoked, how many times the retry callback ran, and the
final outcome (`Except.error e` models a thrown `e`). -/
structure RetryTrace (ε : Type) where
  invocations : Nat
  callbackCount : Nat
  outcome : Except ε Unit

/-- Source loop: the `while (true)` loop of `Utilities.executeCommandWithRetry` (part_002
lines 256-280). The `Utilities.executeCommand` call is abstracted as `fn`,
indexed by the attempt number; `remaining = maxAttempts - attemptNumber` is
the number of re-attempts still allowed (`attemptNumber < maxAttempts` in the
source). On failure with re-attempts remaining the attempt counter advances
and the optional `retryCallback` runs; on failure with none remaining the
error of that last attempt is rethrown unchanged. -/
def retryLoop {ε : Type} (fn : Nat → Except ε Unit) (attemptNumber : Nat) :
    Nat → RetryTrace ε
  | 0 =>
    match fn attemptNumber with
    | .ok _ => ⟨1, 0, .ok ()⟩
    | .error e => ⟨1, 0, .error e⟩
  | remaining + 1 =>
    match fn attemptNumber with
    | .ok _ => ⟨1, 0, .ok ()⟩
    | .error _ =>
      let t := retryLoop fn (attemptNumber + 1) remaining
      ⟨t.invocations + 1, t.callbackCount + 1, t.outcome⟩

/-- Source `Utilities.executeCommandWithRetry` (part_002 lines 248-281): `none` models
the immediate `maxAttempts < 1` configuration error; otherwise the loop starts
at `attemptNumber = 1`. -/
def executeCommandWithRetry {ε : Type} (maxAttempts : Nat)
    (fn : Nat → Except ε Unit) : Option (RetryTrace ε) :=
  if maxAttempts < 1 then none
  else some (retryLoop fn 1 (maxAttempts - 1))

/-- Source loop: the `while (true)` loop of `Utilities.retryUntilTimeout` (part_002 lines
65-94). `fn i` is the result of the i-th invocation of `fn`; `clock i` models
the `Utilities.getTimeInMs()` reading taken in the catch block of iteration
`i`; `startTime` is the reading taken before the loop. On failure, if
`currentTime - startTime > maxWaitTimeMs` the loop throws
`getTimeoutError(e)` built from that iteration's error; otherwise it retries
immediately. `fuel` bounds the unrolling of the source's unbounded loop;
`none` means the loop was still running after `fuel` iterations. -/
def retryUntilTimeoutLoop {R E E2 : Type} (fn : Nat → Except E R)
    (getTimeoutError : E → E2) (clock : Nat → Int)
    (startTime maxWaitTimeMs : Int) : Nat → Nat → Option (Except E2 R)
  | _, 0 => none
  | i, fuel + 1 =>
    match fn i with
    | .ok r => some (.ok r)
    | .error e =>
      if clock i - startTime > maxWaitTimeMs then
        some (.error (getTimeoutError e))
      else
        retryUntilTimeoutLoop fn getTimeoutError clock startTime maxWaitTimeMs
          (i + 1) fuel

/-- Source `Utilities.retryUntilTimeout` (part_002 lines 65-94), loop started at
iteration `0`. -/
def retryUntilTimeout {R E E2 : Type} (fn : Nat → Except E R)
    (getTimeoutError : E → E2) (clock : Nat → Int)
    (startTime maxWaitTimeMs : Int) (fuel : Nat) : Option (Except E2 R) :=
  retryUntilTimeoutLoop fn getTimeoutError clock startTime maxWaitTimeMs 0 fuel

/-- Model of `os.EOL`, modelled for a POSIX host. -/
def EOL : String := "\n"

/-- Model of the `result.error` object of a `spawnSync` return: a NodeJS `Error` whose
informal `errno` field is checked by the ENOENT fallback (part_002 line 517). -/
structure SpawnErrorObj where
  message : String
  errno : Option String
  deriving DecidableEq

/-- Model of `child_process.SpawnSyncReturns` as consumed by `_processResult` and by the
ENOENT fallback: `status` is `none` for the JS value `null` (the child never
exited with a code, e.g. it was terminated by a signal, or it never spawned);
`stdout`/`stderr` are `none` when the stream was not piped (`null`). -/
structure SpawnSyncReturns where
  error : Option SpawnErrorObj
  status : Option Int
  stdout : Option String
  stderr : Option String
  deriving DecidableEq

/-- Source `Utilities._processResult` (part_002 lines 528-538); a thrown error is
modelled as `Except.error` of the thrown message. If `result.error` is set its
message is augmented with the captured stderr and it is rethrown. Otherwise
`if (result.status)` uses JS truthiness: only a non-null, non-zero status
throws (`status === 0` and `status === null` are both falsy), with a message
naming the exit code and carrying the stderr text. -/
def processResult (result : SpawnSyncReturns) : Except String Unit :=
  match result.error with
  | some e =>
    .error (e.message ++ EOL
      ++ (match result.stderr with
          | some s => s ++ EOL
          | none => ""))
  | none =>
    match result.status with
    | some s =>
      if s ≠ 0 then
        .error ("The command failed with exit code " ++ toString s ++ EOL
          ++ (match result.stderr with
              | some t => t
              | none => ""))
      else .ok ()
    | none => .ok ()

/-- Source `Utilities._executeCommandInternal` (part_002 lines 481-526) with the
`child_process.spawnSync` call abstracted as `spawn` (the options object is
fixed across both calls and omitted). Returns the list of spawn attempts made,
each as (command string, argument list), together with the surfaced outcome:
`_processResult` applied to the final spawn result, then that result. The
fallback fires exactly when the first result carries an error whose `errno` is
`'ENOENT'`, and it re-spawns with `.cmd` appended to the *original* command
and the *original* (unescaped) arguments. -/
def executeCommandInternal
    (spawn : String → List String → SpawnSyncReturns)
    (command : String) (args : List String) :
    List (String × List String) × Except String SpawnSyncReturns :=
  let firstAttempt := (escapedCommand command, escapedArgs args)
  let r1 := spawn firstAttempt.1 firstAttempt.2
  let state :=
    match r1.error with
    | some e =>
      if e.errno = some "ENOENT" then
        ([firstAttempt, (command ++ ".cmd", args)],
         spawn (command ++ ".cmd") args)
      else ([firstAttempt], r1)
    | none => ([firstAttempt], r1)
  (state.1, (processResult state.2).map (fun _ => state.2))

/-- Predicate for recursive deletion: path `p` is the literal path `target`
itself or lies below it in the directory tree. -/
def isUnderPath (target p : String) : Bool :=
  p = target || strStartsWith p (target ++ "/")

/-- Model of the external `rimraf` library call made by
`Utilities.dangerouslyDeletePath` (part_002 line 158): `rimraf.sync(pattern,
options)` deletes, from the filesystem (modelled as the list of existing
paths), everything at or below each target path; with `disableGlob: true` the
single target is the literal pattern string, otherwise the targets are the
glob expansion of the pattern (the expansion being a parameter of the model). -/
def rimrafSync (glob : String → List String) (fs : List String)
    (pattern : String) (disableGlob : Bool) : List String :=
  let targets := if disableGlob then [pattern] else glob pattern
  fs.filter (fun p => !(targets.any (fun t => isUnderPath t p)))

/-- Source `Utilities.dangerouslyDeletePath` (part_002 lines 156-163): calls
`rimraf.sync(folderPath, { disableGlob: true })`. (The catch block that
re-wraps a thrown error message is not modelled; the claim concerns path
handling only.) -/
def dangerouslyDeletePath (glob : String → List String) (fs : List String)
    (folderPath : String) : List String :=
  rimrafSync glob fs folderPath true

/-- Observable calls received by the `PurgeManager` during a purge CLI action,
in order. `registerShared` stands for the registration of the shared
(user-home-scoped, spec: unsafe-tier) targets. -/
inductive PurgeEvent where
  | registerNormal
  | registerShared
  | deleteAll
  deriving DecidableEq

/-- Modelled from the spec: `PurgeManager` (imported by `PurgeAction.ts` from
`../logic/PurgeManager`) is not among the provided sources; only its caller
is. Following the spec (section 6: the CLI flag parser "invokes, in order:
register-normal, conditionally register-unsafe, then purge") and the flag's
own help text in `PurgeAction.ts` ("(UNSAFE!) Also delete shared files ..."),
`purgeNormal` registers the normal-tier targets. -/
def purgeNormalEvents : List PurgeEvent := [.registerNormal]

/-- Modelled from the spec: `purgeUnsafe` of the `PurgeManager` registers the
normal-tier targets and additionally the shared (unsafe-tier) targets — the
flag help text says it *also* deletes the shared files. -/
def purgeSharedEvents : List PurgeEvent := [.registerNormal, .registerShared]

/-- Modelled from the spec: `deleteAll` of the `PurgeManager` performs the
purge of every registered target. -/
def deleteAllEvents : List PurgeEvent := [.deleteAll]

/-- Source `PurgeAction.run` (PurgeAction.ts lines 36-55): branches on the
boolean value of the `--unsafe` flag (`sharedOptIn` here) to call
`purgeManager.purgeUnsafe()` or `purgeManager.purgeNormal()`, then always
calls `purgeManager.deleteAll()`. -/
def purgeActionRun (sharedOptIn : Bool) : List PurgeEvent :=
  (if sharedOptIn then purgeSharedEvents else purgeNormalEvents)
    ++ deleteAllEvents

end RushUtilities

section SanitizerLemmas

open RushUtilities

theorem normalizedKey_INIT_CWD (isWin32 : Bool) :
    normalizedKey isWin32 "INIT_CWD" = "INIT_CWD" := by
  cases isWin32 <;> decide

theorem isDroppedKey_INIT_CWD (isWin32 : Bool) :
    isDroppedKey isWin32 "INIT_CWD" = true := by
  cases isWin32 <;> decide

theorem filter_no_INIT_CWD (isWin32 : Bool) (env : Environment) :
    (env.filter (fun p => !isDroppedKey isWin32 p.1)).any
      (fun p => p.1 = "INIT_CWD") = false := by
  rw [List.any_eq_false]
  intro p hp
  rcases List.mem_filter.mp hp with ⟨_, hkeep⟩
  simp only [Bool.not_eq_true', decide_eq_true_eq] at hkeep ⊢
  intro hk
  rw [hk, isDroppedKey_INIT_CWD] at hkeep
  exact absurd hkeep (by decide)

theorem setKey_filtered_eq_append (isWin32 : Bool) (env : Environment) (v : String) :
    setKey (env.filter (fun p => !isDroppedKey isWin32 p.1)) "INIT_CWD" v
      = env.filter (fun p => !isDroppedKey isWin32 p.1) ++ [("INIT_CWD", v)] := by
  unfold setKey
  rw [filter_no_INIT_CWD]
  simp

theorem mem_filtered_not_dropped (isWin32 : Bool) (env : Environment)
    (p : String × String) (hp : p ∈ env.filter (fun q => !isDroppedKey isWin32 q.1)) :
    normalizedKey isWin32 p.1 ≠ "INIT_CWD"
      ∧ strStartsWith (normalizedKey isWin32 p.1) "NPM_CONFIG_" = false := by
  rcases List.mem_filter.mp hp with ⟨_, hkeep⟩
  simp only [Bool.not_eq_true'] at hkeep
  unfold isDroppedKey at hkeep
  rcases Bool.or_eq_false_iff.mp hkeep with ⟨h1, h2⟩
  exact ⟨by simpa using h1, h2⟩

/-- C1: For every base environment containing an `NPM_CONFIG_*` key (any
letter case) and a key `INIT_CWD`, the environment built by
`_createEnvironmentForRushCommand` contains no entry whose comparison key
starts with `NPM_CONFIG_`; the only entry it can contain whose comparison key
equals `INIT_CWD` is the explicitly injected `INIT_CWD = initCwd` (present
exactly when `initCwd` is non-empty); and when `initCwd` is non-empty the
result maps `INIT_CWD` to exactly that value. -/
theorem c1_sanitizer_strips_npm_config_and_init_cwd
    (isWin32 : Bool) (initCwd : String) (env : Environment)
    (_hnpm : ∃ p ∈ env, strStartsWith (toUpperCase p.1) "NPM_CONFIG_" = true)
    (_hinit : ∃ v, ("INIT_CWD", v) ∈ env) :
    (∀ p ∈ createEnvironmentForRushCommand isWin32 initCwd env,
        strStartsWith (normalizedKey isWin32 p.1) "NPM_CONFIG_" = false)
    ∧ (∀ p ∈ createEnvironmentForRushCommand isWin32 initCwd env,
        normalizedKey isWin32 p.1 = "INIT_CWD"
          → initCwd ≠ "" ∧ p = ("INIT_CWD", initCwd))
    ∧ (initCwd ≠ ""
        → lookupEnv (createEnvironmentForRushCommand isWin32 initCwd env) "INIT_CWD"
            = some initCwd) := by
  unfold createEnvironmentForRushCommand
  by_cases hcwd : initCwd = ""
  · simp only [hcwd, ne_eq, not_true_eq_false, if_false]
    refine ⟨?_, ?_, ?_⟩
    · intro p hp
      exact (mem_filtered_not_dropped isWin32 env p hp).2
    · intro p hp hkey
      exact absurd hkey (mem_filtered_not_dropped isWin32 env p hp).1
    · intro h; exact h.elim
  · simp only [ne_eq, hcwd, not_false_eq_true, if_true,
      setKey_filtered_eq_append]
    refine ⟨?_, ?_, ?_⟩
    · intro p hp
      rcases List.mem_append.mp hp with h | h
      · exact (mem_filtered_not_dropped isWin32 env p h).2
      · rcases List.mem_singleton.mp h with rfl
        rw [normalizedKey_INIT_CWD]
        decide
    · intro p hp hkey
      rcases List.mem_append.mp hp with h | h
      · exact absurd hkey (mem_filtered_not_dropped isWin32 env p h).1
      · exact ⟨trivial, List.mem_singleton.mp h⟩
    · intro _
      unfold lookupEnv
      rw [List.find?_append]
      have hnone : (env.filter (fun p => !isDroppedKey isWin32 p.1)).find?
          (fun p => p.1 = "INIT_CWD") = none := by
        rw [List.find?_eq_none]
        intro p hp
        simp only [decide_eq_true_eq]
        intro hk
        exact (mem_filtered_not_dropped isWin32 env p hp).1 (hk ▸ normalizedKey_INIT_CWD isWin32)
      rw [hnone]
      simp [List.find?]

/-- Witness for C1 at a concrete environment on a POSIX platform. -/
theorem c1_sanitizer_witness :
    (∀ p ∈ createEnvironmentForRushCommand false "/repo"
        [("NPM_CONFIG_CACHE", "y"), ("npm_config_registry", "x"),
         ("INIT_CWD", "/old"), ("PATH", "/bin")],
        strStartsWith (normalizedKey false p.1) "NPM_CONFIG_" = false)
    ∧ (∀ p ∈ createEnvironmentForRushCommand false "/repo"
        [("NPM_CONFIG_CACHE", "y"), ("npm_config_registry", "x"),
         ("INIT_CWD", "/old"), ("PATH", "/bin")],
        normalizedKey false p.1 = "INIT_CWD"
          → "/repo" ≠ "" ∧ p = ("INIT_CWD", "/repo"))
    ∧ ("/repo" ≠ ""
        → lookupEnv (createEnvironmentForRushCommand false "/repo"
            [("NPM_CONFIG_CACHE", "y"), ("npm_config_registry", "x"),
             ("INIT_CWD", "/old"), ("PATH", "/bin")]) "INIT_CWD"
            = some "/repo") :=
  c1_sanitizer_strips_npm_config_and_init_cwd false "/repo"
    [("NPM_CONFIG_CACHE", "y"), ("npm_config_registry", "x"),
     ("INIT_CWD", "/old"), ("PATH", "/bin")]
    ⟨("NPM_CONFIG_CACHE", "y"), by decide, by decide⟩
    ⟨"/old", by decide⟩

/-- C9 counterexample: Sanitizing is not idempotent on snapshots produced
with a non-empty `initCwd`: re-sanitizing with no `initCwd` strips the injected
`INIT_CWD` entry again. -/
theorem c9_sanitizer_not_idempotent_counterexample :
    createEnvironmentForRushCommand false ""
        (createEnvironmentForRushCommand false "/x" [])
      ≠ createEnvironmentForRushCommand false "/x" [] := by
  decide

/-- C9 amended: Sanitizing a snapshot that was itself produced by the
sanitizer *with no `initCwd`*, again with no `initCwd`, yields the same
snapshot. -/
theorem c9_sanitizer_idempotent_amended (isWin32 : Bool) (env : Environment) :
    createEnvironmentForRushCommand isWin32 ""
        (createEnvironmentForRushCommand isWin32 "" env)
      = createEnvironmentForRushCommand isWin32 "" env := by
  unfold createEnvironmentForRushCommand
  simp [List.filter_filter]

end SanitizerLemmas

section EscapingLemmas

open RushUtilities

theorem escapeShellParameter_data (t : String) :
    (escapeShellParameter t).data = '"' :: (t.data ++ ['"']) := by
  cases t
  rfl

theorem shellSplit_quoted_run (l : List Char) (hq : '"' ∉ l) (cur : List Char) :
    shellSplit (l ++ ['"']) true cur true = [cur.reverse ++ l] := by
  induction l generalizing cur with
  | nil => simp [shellSplit]
  | cons c l ih =>
    have hc : ¬ (c = '"') := fun h => hq (h ▸ List.mem_cons_self c l)
    rw [List.cons_append]
    simp only [shellSplit]
    rw [if_neg hc, if_neg (by simp)]
    rw [ih (fun h => hq (List.mem_cons_of_mem c h)) (c :: cur)]
    simp

theorem shellWords_escapeShellParameter (t : String) (hq : '"' ∉ t.data) :
    shellWords (escapeShellParameter t) = [t] := by
  obtain ⟨d⟩ := t
  unfold shellWords
  rw [escapeShellParameter_data]
  simp only [shellSplit, if_pos rfl, Bool.not_false]
  rw [shellSplit_quoted_run d hq []]
  simp

/-- C2 counterexample: The claim fails as stated: an argument token with no
space is still escaped (not passed through byte-identical), and a token
containing a space together with a double quote does not round-trip through
escaping plus shell parsing to the literal original. -/
theorem c2_escaping_counterexample :
    escapedArgs ["abc"] ≠ ["abc"]
    ∧ shellWords (escapeShellParameter "a\"b c") ≠ ["a\"b c"] := by
  constructor <;> decide

/-- C2 amended: A command token with no space is passed through the
escaping step byte-identical; every argument token is escaped unconditionally
(wrapped in double quotes); and a token containing no double-quote character
round-trips through escaping plus shell word-splitting to exactly the literal
original token — in particular a command token containing a space (which the
executor escapes) is delivered to the child as the original string. -/
theorem c2_escaping_amended (t : String) (hq : '"' ∉ t.data) :
    (t.data.contains ' ' = false → escapedCommand t = t)
    ∧ escapedArgs [t] = [escapeShellParameter t]
    ∧ shellWords (escapeShellParameter t) = [t]
    ∧ (t.data.contains ' ' = true → shellWords (escapedCommand t) = [t]) := by
  refine ⟨?_, rfl, shellWords_escapeShellParameter t hq, ?_⟩
  · intro h
    unfold escapedCommand
    rw [h]
    simp
  · intro h
    have hesc : escapedCommand t = escapeShellParameter t := by
      unfold escapedCommand
      rw [h]
      simp
    rw [hesc]
    exact shellWords_escapeShellParameter t hq

/-- Witness for the amended C2 at the token `hello there`. -/
theorem c2_escaping_amended_witness :
    (("hello there" : String).data.contains ' ' = false
        → escapedCommand "hello there" = "hello there")
    ∧ escapedArgs ["hello there"] = [escapeShellParameter "hello there"]
    ∧ shellWords (escapeShellParameter "hello there") = ["hello there"]
    ∧ (("hello there" : String).data.contains ' ' = true
        → shellWords (escapedCommand "hello there") = ["hello there"]) :=
  c2_escaping_amended "hello there" (by decide)

end EscapingLemmas

section RetryLemmas

open RushUtilities

/-- C3: `executeCommandWithRetry` with `maxAttempts = 3` and a command
failing on every attempt invokes the command exactly 3 times, invokes the
retry callback exactly twice (once after each of the first two failures,
before the re-attempt), and finally rethrows exactly the error of attempt 3,
unchanged. -/
theorem c3_retry_exhausts_three_attempts {ε : Type} (fn : Nat → Except ε Unit)
    (es : Nat → ε) (hfail : ∀ i, fn i = .error (es i)) :
    executeCommandWithRetry 3 fn
      = some ⟨3, 2, Except.error (es 3)⟩ := by
  unfold executeCommandWithRetry
  rw [if_neg (by decide)]
  simp [retryLoop, hfail 1, hfail 2, hfail 3]

/-- Witness for C3: a command failing on every attempt with error `i` on
attempt `i`. -/
theorem c3_retry_witness :
    executeCommandWithRetry 3 (fun i => (Except.error i : Except Nat Unit))
      = some ⟨3, 2, Except.error 3⟩ :=
  c3_retry_exhausts_three_attempts (fun i => Except.error i) (fun i => i)
    (fun _ => rfl)

theorem retryUntilTimeoutLoop_reaches_timeout {R E E2 : Type}
    (fn : Nat → Except E R) (es : Nat → E) (f : E → E2) (clock : Nat → Int)
    (startTime maxWaitTimeMs : Int) (hfail : ∀ i, fn i = .error (es i)) :
    ∀ (j i fuel : Nat), clock (i + j) - startTime > maxWaitTimeMs
      → (∀ k < j, clock (i + k) - startTime ≤ maxWaitTimeMs)
      → j < fuel
      → retryUntilTimeoutLoop fn f clock startTime maxWaitTimeMs i fuel
          = some (.error (f (es (i + j)))) := by
  intro j
  induction j with
  | zero =>
    intro i fuel hj _ hfuel
    obtain ⟨fuel', rfl⟩ : ∃ fuel', fuel = fuel' + 1 :=
      ⟨fuel - 1, by omega⟩
    simp only [retryUntilTimeoutLoop, hfail i]
    rw [if_pos (by simpa using hj)]
    simp
  | succ j ih =>
    intro i fuel hj hlt hfuel
    obtain ⟨fuel', rfl⟩ : ∃ fuel', fuel = fuel' + 1 :=
      ⟨fuel - 1, by omega⟩
    simp only [retryUntilTimeoutLoop, hfail i]
    rw [if_neg (by simpa using hlt 0 (Nat.succ_pos j))]
    have harr : (i + 1) + j = i + (j + 1) := by omega
    have := ih (i + 1) fuel' (by rw [harr]; exact hj)
      (fun k hk => by
        have := hlt (k + 1) (by omega)
        simpa [Nat.add_comm, Nat.add_left_comm, Nat.add_assoc] using this)
      (by omega)
    rw [this, harr]

/-- C4: `retryUntilTimeout` where `fn` throws on every invocation: as soon
as a failure is observed at a clock reading strictly past the time budget
(iteration `j`, the first such reading), the call fails; at that moment the
elapsed time since `startTime` is at least `maxWaitTimeMs`, and the error
thrown is exactly `getTimeoutError` applied to the error of that last failing
invocation of `fn`. -/
theorem c4_retryUntilTimeout_times_out {R E E2 : Type} (fn : Nat → Except E R)
    (es : Nat → E) (f : E → E2) (clock : Nat → Int)
    (startTime maxWaitTimeMs : Int) (j fuel : Nat)
    (hfail : ∀ i, fn i = .error (es i))
    (hj : clock j - startTime > maxWaitTimeMs)
    (hfirst : ∀ k < j, clock k - startTime ≤ maxWaitTimeMs)
    (hfuel : j < fuel) :
    retryUntilTimeout fn f clock startTime maxWaitTimeMs fuel
        = some (.error (f (es j)))
    ∧ clock j - startTime ≥ maxWaitTimeMs := by
  constructor
  · have := retryUntilTimeoutLoop_reaches_timeout fn es f clock startTime
      maxWaitTimeMs hfail j 0 fuel (by simpa using hj)
      (fun k hk => by simpa using hfirst k hk) hfuel
    simpa [retryUntilTimeout] using this
  · exact le_of_lt hj

/-- Witness for C4: `fn` always fails with error `i` on invocation `i`, clock
reading `i` at iteration `i`, start time 0, budget 2 ms: the loop times out at
iteration 3. -/
theorem c4_retryUntilTimeout_witness :
    retryUntilTimeout (fun i => (Except.error i : Except Nat Unit))
        (fun e => e + 100) (fun i => (i : Int)) 0 2 5
        = some (.error 103)
    ∧ ((3 : Int) : Int) - 0 ≥ 2 :=
  c4_retryUntilTimeout_times_out (fun i => Except.error i) (fun i => i)
    (fun e => e + 100) (fun i => (i : Int)) 0 2 3 5
    (fun _ => rfl) (by decide) (by decide) (by decide)

end RetryLemmas

section ProcessResultLemmas

open RushUtilities

/-- C5: For a synchronous execution whose child spawned successfully
(`result.error` absent): exit status 0 makes `_processResult` return without
throwing, and a non-zero exit status `s` makes it throw an error whose message
carries that exit status code and the captured stderr text. -/
theorem c5_processResult_exit_status (r : SpawnSyncReturns)
    (hspawn : r.error = none) :
    (r.status = some 0 → processResult r = .ok ())
    ∧ (∀ s : Int, r.status = some s → s ≠ 0 →
        processResult r
          = .error ("The command failed with exit code " ++ toString s ++ EOL
              ++ (match r.stderr with
                  | some t => t
                  | none => ""))) := by
  constructor
  · intro h0
    unfold processResult
    rw [hspawn, h0]
    simp
  · intro s hs hnz
    unfold processResult
    rw [hspawn, hs]
    simp [hnz]

/-- Witness for C5 at a child that exited with status 2 and stderr `boom`. -/
theorem c5_processResult_witness :
    ((⟨none, some 2, some "", some "boom"⟩ : SpawnSyncReturns).status = some 0
        → processResult ⟨none, some 2, some "", some "boom"⟩ = .ok ())
    ∧ (∀ s : Int,
        (⟨none, some 2, some "", some "boom"⟩ : SpawnSyncReturns).status = some s
        → s ≠ 0
        → processResult ⟨none, some 2, some "", some "boom"⟩
            = .error ("The command failed with exit code " ++ toString s ++ EOL
                ++ (match (⟨none, some 2, some "", some "boom"⟩
                      : SpawnSyncReturns).stderr with
                    | some t => t
                    | none => ""))) :=
  c5_processResult_exit_status ⟨none, some 2, some "", some "boom"⟩ rfl

/-- C10: When a spawnSync result has no spawn error and a falsy `status`
field (`null`, as when the child was killed by a signal), `_processResult`
raises no error — the call behaves as if the command succeeded; with a
numeric status, an error is raised exactly when the status is non-zero
(truthy). -/
theorem c10_processResult_null_status_is_success (r : SpawnSyncReturns)
    (hspawn : r.error = none) :
    (r.status = none → processResult r = .ok ())
    ∧ (∀ s : Int, r.status = some s
        → (processResult r = .ok () ↔ s = 0)) := by
  constructor
  · intro h0
    unfold processResult
    rw [hspawn, h0]
  · intro s hs
    unfold processResult
    rw [hspawn, hs]
    by_cases h : s = 0
    · simp [h]
    · simp [h]

/-- Witness for C10 at a result with `status = null` (signal-terminated child). -/
theorem c10_processResult_witness :
    ((⟨none, none, none, some "killed"⟩ : SpawnSyncReturns).status = none
        → processResult ⟨none, none, none, some "killed"⟩ = .ok ())
    ∧ (∀ s : Int,
        (⟨none, none, none, some "killed"⟩ : SpawnSyncReturns).status = some s
        → (processResult ⟨none, none, none, some "killed"⟩ = .ok () ↔ s = 0)) :=
  c10_processResult_null_status_is_success ⟨none, none, none, some "killed"⟩ rfl

/-- C7: When the first spawn attempt of `_executeCommandInternal` reports
ENOENT, exactly one further attempt is made, with `.cmd` appended to the
command name (and the original unescaped arguments), and the surfaced outcome
is `_processResult` of that second attempt — so the fallback runs before any
error reaches the caller; when the first attempt fails with any other spawn
error, or does not fail, no second attempt is made. -/
theorem c7_enoent_fallback_retries_once
    (spawn : String → List String → SpawnSyncReturns)
    (command : String) (args : List String) :
    ((∃ e, (spawn (escapedCommand command) (escapedArgs args)).error = some e
        ∧ e.errno = some "ENOENT") →
      (executeCommandInternal spawn command args).1
          = [(escapedCommand command, escapedArgs args),
             (command ++ ".cmd", args)]
      ∧ (executeCommandInternal spawn command args).2
          = (processResult (spawn (command ++ ".cmd") args)).map
              (fun _ => spawn (command ++ ".cmd") args))
    ∧ (∀ e, (spawn (escapedCommand command) (escapedArgs args)).error = some e
        → e.errno ≠ some "ENOENT"
        → (executeCommandInternal spawn command args).1
            = [(escapedCommand command, escapedArgs args)])
    ∧ ((spawn (escapedCommand command) (escapedArgs args)).error = none
        → (executeCommandInternal spawn command args).1
            = [(escapedCommand command, escapedArgs args)]) := by
  refine ⟨?_, ?_, ?_⟩
  · rintro ⟨e, herr, henoent⟩
    unfold executeCommandInternal
    dsimp only
    rw [herr]
    simp [henoent]
  · intro e herr henoent
    unfold executeCommandInternal
    dsimp only
    rw [herr]
    simp [henoent]
  · intro herr
    unfold executeCommandInternal
    dsimp only
    rw [herr]

/-- A spawn function for the C7 witness: `npm` is only resolvable through its
`.cmd` shim; the bare invocation reports ENOENT. -/
def enoentSpawnDemo : String → List String → SpawnSyncReturns := fun c _ =>
  if c = "npm.cmd" then ⟨none, some 0, some "", some ""⟩
  else ⟨some ⟨"spawn npm ENOENT", some "ENOENT"⟩, none, none, none⟩

/-- Witness for C7: the ENOENT branch at a concrete spawn function. -/
theorem c7_enoent_fallback_witness :
    (executeCommandInternal enoentSpawnDemo "npm" ["install"]).1
        = [(escapedCommand "npm", escapedArgs ["install"]),
           ("npm" ++ ".cmd", ["install"])]
    ∧ (executeCommandInternal enoentSpawnDemo "npm" ["install"]).2
        = (processResult (enoentSpawnDemo ("npm" ++ ".cmd") ["install"])).map
            (fun _ => enoentSpawnDemo ("npm" ++ ".cmd") ["install"]) :=
  (c7_enoent_fallback_retries_once enoentSpawnDemo "npm" ["install"]).1
    ⟨⟨"spawn npm ENOENT", some "ENOENT"⟩, by decide, rfl⟩

end ProcessResultLemmas

section PurgeLemmas

open RushUtilities

/-- C8: `dangerouslyDeletePath` treats its path as a literal filesystem path:
the glob expansion function is never consulted (the result is the same for
any two expansion functions), and a path survives the deletion exactly when
it is neither the named path nor located below it — no other filesystem
location is affected. -/
theorem c8_dangerouslyDeletePath_literal
    (glob glob2 : String → List String) (fs : List String)
    (folderPath : String) :
    dangerouslyDeletePath glob fs folderPath
        = dangerouslyDeletePath glob2 fs folderPath
    ∧ (∀ p, p ∈ dangerouslyDeletePath glob fs folderPath
        ↔ p ∈ fs ∧ isUnderPath folderPath p = false) := by
  constructor
  · rfl
  · intro p
    simp [dangerouslyDeletePath, rimrafSync, List.mem_filter]

/-- C6: the purge CLI action always registers the normal tier, registers the
shared (unsafe) tier exactly when the flag is set, and then performs the
purge, in that order. -/
theorem c6_purgeAction_order (sharedOptIn : Bool) :
    purgeActionRun sharedOptIn
      = [PurgeEvent.registerNormal]
        ++ (if sharedOptIn then [PurgeEvent.registerShared] else [])
        ++ [PurgeEvent.deleteAll] := by
  cases sharedOptIn <;> rfl

end PurgeLemmas
